import Mathlib

/-!
Shallow embedding of the core of the `web_establishment_bot` repository:
the browser-profile pool (`BrowserPool` in the main module), the login retry
orchestration and tracker bookkeeping of `src/test-integrated.ts`, the
verification-code acquisition loop of `performLogin`, the delivery-issue
classification, and the `waitRandomTime` helper.  Asynchronous waits are
modelled by recording their durations; the wall clock (`new Date()`) and
random draws are passed as explicit parameters.
-/

namespace WebEstablishmentBot

/-! ### String helpers (JS `String.prototype` operations used by the code) -/

/-- One step list of JS `replaceAll`: fuel-indexed replacement of every
occurrence of `pat` by `rep` in a character list (patterns used by the code
are non-empty, so the fuel `l.length` always suffices). -/
def replaceFuel (pat rep : List Char) : Nat → List Char → List Char
  | _, [] => []
  | 0, l => l
  | fuel + 1, c :: rest =>
    if pat.isPrefixOf (c :: rest) then
      rep ++ replaceFuel pat rep fuel ((c :: rest).drop pat.length)
    else
      c :: replaceFuel pat rep fuel rest

/-- JS `s.replaceAll(pat, rep)`. -/
def replaceAll (s pat rep : String) : String :=
  String.mk (replaceFuel pat.data rep.data s.data.length s.data)

/-- Helper for JS `includes`: does `sub` occur as a contiguous run in `l`. -/
def listContainsSub (sub : List Char) : List Char → Bool
  | [] => sub.isEmpty
  | c :: rest => sub.isPrefixOf (c :: rest) || listContainsSub sub rest

/-- JS `s.includes(sub)`. -/
def includesSubstr (s sub : String) : Bool :=
  listContainsSub sub.data s.data

/-- JS `s.toLowerCase()`. -/
def toLowerCase (s : String) : String := s.toLower

/-- JS `n.toString().padStart(2, '0')` as used for instance numbers. -/
def padStart2 (n : Nat) : String :=
  let s := toString n
  String.mk (List.replicate (2 - s.length) '0') ++ s

/-! ### Configuration (the fields of `BotConfig` the pool reads) -/

/-- The `browser` section of `BotConfig`: `poolSize` (optional in YAML) and
the `userDataPath` template containing the placeholders
"\x7b__instance__\x7d" and "\x7b__context__\x7d". -/
structure BrowserConfig where
  poolSize : Option Nat
  userDataPath : String
deriving DecidableEq

/-- The slice of `BotConfig` consumed by `BrowserPool`. -/
structure BotConfig where
  browser : BrowserConfig
deriving DecidableEq

/-- `this.config.browser.poolSize || 3`: JS `||` falls back on `undefined`
and on the falsy number `0`. -/
def effectivePoolSize (config : BotConfig) : Nat :=
  match config.browser.poolSize with
  | none => 3
  | some n => if n == 0 then 3 else n

/-! ### BrowserProfile and BrowserPool -/

/-- Interface `BrowserProfile` of the main module.  The source field
`instance` is a Lean keyword and is embedded as `instanceNum`; the source
field `protected` likewise is embedded as `protectedFlag`.  The puppeteer
browser handle is abstracted to an opaque numeric id. -/
structure BrowserProfile where
  profile : String
  pid : String
  instanceNum : Nat
  browser : Option Nat
  usedSince : Option Nat
  protectedFlag : Bool := false
deriving DecidableEq

/-- State of class `BrowserPool`: the `available` and `used` lists plus the
configuration captured by the constructor. -/
structure BrowserPool where
  available : List BrowserProfile
  used : List BrowserProfile
  config : BotConfig
deriving DecidableEq

/-- `BrowserPool.getProfilePath`: substitute the zero-padded instance number
into the `userDataPath` template (the context placeholder stays). -/
def getProfilePath (config : BotConfig) (instanceNum : String) : String :=
  replaceAll config.browser.userDataPath "{__instance__}" instanceNum

/-- `BrowserPool.getPidFilePath`. -/
def getPidFilePath (config : BotConfig) (instanceNum : String) : String :=
  getProfilePath config instanceNum ++ "/pid.txt"

/-- `BrowserPool.initPool`: create `poolSize` profiles, numbered 1..poolSize,
all placed in `available` with no browser and no `usedSince`. -/
def initPool (config : BotConfig) : BrowserPool :=
  let poolSize := effectivePoolSize config
  { available :=
      (List.range' 1 poolSize).map fun i =>
        { instanceNum := i
          profile := getProfilePath config (padStart2 i)
          pid := getPidFilePath config (padStart2 i)
          browser := none
          usedSince := none }
    used := []
    config := config }

/-- `BrowserPool.getBrowserProfile(context)`: `null` when `available` is
empty; otherwise shift the first available profile, substitute the context
into its paths, stamp `usedSince` with the current time and push it onto
`used`.  `now` is the clock value of `new Date()`. -/
def getBrowserProfile (pool : BrowserPool) (context : String) (now : Nat) :
    Option BrowserProfile × BrowserPool :=
  match pool.available with
  | [] => (none, pool)
  | p :: rest =>
    let p' := { p with
      profile := replaceAll p.profile "{__context__}" context
      pid := replaceAll p.pid "{__context__}" context
      usedSince := some now }
    (some p', { pool with available := rest, used := pool.used ++ [p'] })

/-- JS `used.findIndex(p => p.instance === profile.instance) !== -1`. -/
def containsInst (inst : Nat) : List BrowserProfile → Bool
  | [] => false
  | p :: rest => p.instanceNum == inst || containsInst inst rest

/-- JS `used.splice(index, 1)` at the index found by `findIndex`: remove the
first profile with the given instance number. -/
def eraseFirstInst (inst : Nat) : List BrowserProfile → List BrowserProfile
  | [] => []
  | p :: rest => if p.instanceNum == inst then rest else p :: eraseFirstInst inst rest

/-- Field resets performed by `returnBrowserProfile` on the returned profile:
paths back to the un-parameterised templates, `browser` and `usedSince`
nulled.  The source performs no assignment to the `protected` field here. -/
def resetReturnedProfile (config : BotConfig) (profile : BrowserProfile) : BrowserProfile :=
  let instanceNum := padStart2 profile.instanceNum
  { profile with
    profile := getProfilePath config instanceNum
    pid := getPidFilePath config instanceNum
    browser := none
    usedSince := none }

/-- `BrowserPool.returnBrowserProfile(profile, deleteFile)`: if a used
profile with the same instance number exists, splice it out, reset the
argument's fields and push it to `available`; otherwise only a warning is
logged and the state is untouched.  PID-file deletion is filesystem I/O with
no effect on pool state. -/
def returnBrowserProfile (pool : BrowserPool) (profile : BrowserProfile)
    (_deleteFile : Bool := true) : BrowserPool :=
  if containsInst profile.instanceNum pool.used then
    { pool with
      used := eraseFirstInst profile.instanceNum pool.used
      available := pool.available ++ [resetReturnedProfile pool.config profile] }
  else
    pool

/-- `BrowserPool.getProfileAgeInSeconds`: 0 for a free profile, otherwise
`Math.floor((now - usedSince) / 1000)`. -/
def getProfileAgeInSeconds (now : Nat) (profile : BrowserProfile) : Nat :=
  match profile.usedSince with
  | none => 0
  | some t => (now - t) / 1000

/-- Result record of `forceCloseBrowsersOlderThan`, extended with the list
of instance numbers whose browsers were actually closed and released. -/
structure ForceCloseResult where
  processed : Nat
  closed : Nat
  closedInstances : List Nat
deriving DecidableEq

/-- One iteration of the `forceCloseBrowsersOlderThan` loop body for a
snapshot element `p`: count it as processed; if over age and not protected,
close the browser, kill the orphan process (I/O) and return the profile to
the pool; protected or under-age profiles are skipped. -/
def forceCloseStep (maxTimeSeconds now : Nat) (st : BrowserPool × ForceCloseResult)
    (p : BrowserProfile) : BrowserPool × ForceCloseResult :=
  let (pool, r) := st
  let r := { r with processed := r.processed + 1 }
  if getProfileAgeInSeconds now p ≥ maxTimeSeconds then
    if p.protectedFlag then
      (pool, r)
    else
      (returnBrowserProfile pool p true,
       { r with closed := r.closed + 1, closedInstances := r.closedInstances ++ [p.instanceNum] })
  else
    (pool, r)

/-- `BrowserPool.forceCloseBrowsersOlderThan(maxTimeSeconds)`: iterate over a
snapshot `[...this.used]` of the used list, evicting unprotected over-age
profiles. -/
def forceCloseBrowsersOlderThan (pool : BrowserPool) (maxTimeSeconds now : Nat) :
    BrowserPool × ForceCloseResult :=
  pool.used.foldl (forceCloseStep maxTimeSeconds now) (pool, ⟨0, 0, []⟩)

/-! ### Operation sequences over the pool (for the capacity invariant) -/

/-- An allocate or release call against the pool. -/
inductive PoolOp where
  | get (context : String) (now : Nat)
  | ret (profile : BrowserProfile) (deleteFile : Bool)

/-- Apply one call to the pool state. -/
def applyPoolOp (pool : BrowserPool) : PoolOp → BrowserPool
  | .get context now => (getBrowserProfile pool context now).2
  | .ret profile deleteFile => returnBrowserProfile pool profile deleteFile

/-- Run a sequence of allocate/release calls from a given state. -/
def runPoolOps (pool : BrowserPool) (ops : List PoolOp) : BrowserPool :=
  ops.foldl applyPoolOp pool

/-! ### Pool lemmas -/

/-- Splicing out a present instance shrinks the list by exactly one. -/
theorem length_eraseFirstInst (inst : Nat) (l : List BrowserProfile)
    (h : containsInst inst l = true) :
    (eraseFirstInst inst l).length + 1 = l.length := by
  induction l with
  | nil => simp [containsInst] at h
  | cons p rest ih =>
    by_cases hp : (p.instanceNum == inst) = true
    · simp [eraseFirstInst, hp]
    · have hrest : containsInst inst rest = true := by
        simpa [containsInst, hp] using h
      simp [eraseFirstInst, hp, ih hrest]

/-- Allocation and release both preserve the total number of slot objects. -/
theorem applyPoolOp_sum (pool : BrowserPool) (op : PoolOp) :
    (applyPoolOp pool op).available.length + (applyPoolOp pool op).used.length
      = pool.available.length + pool.used.length := by
  cases op with
  | get context now =>
    cases h : pool.available with
    | nil => simp [applyPoolOp, getBrowserProfile, h]
    | cons p rest =>
      simp [applyPoolOp, getBrowserProfile, h]
      omega
  | ret profile deleteFile =>
    by_cases h : containsInst profile.instanceNum pool.used = true
    · have := length_eraseFirstInst profile.instanceNum pool.used h
      simp [applyPoolOp, returnBrowserProfile, h]
      omega
    · simp [applyPoolOp, returnBrowserProfile, h]

/-- The slot-count sum is invariant under any sequence of calls. -/
theorem runPoolOps_sum (ops : List PoolOp) (pool : BrowserPool) :
    (runPoolOps pool ops).available.length + (runPoolOps pool ops).used.length
      = pool.available.length + pool.used.length := by
  induction ops generalizing pool with
  | nil => rfl
  | cons op rest ih =>
    have h1 := applyPoolOp_sum pool op
    have h2 := ih (applyPoolOp pool op)
    simpa [runPoolOps, List.foldl_cons] using h2.trans h1

/-- `initPool` creates exactly `effectivePoolSize` available slots and no
used slot. -/
theorem initPool_lengths (config : BotConfig) :
    (initPool config).available.length = effectivePoolSize config
      ∧ (initPool config).used.length = 0 := by
  simp [initPool]

/-- Allocation returns `null` exactly on an empty available list. -/
theorem getBrowserProfile_none_iff (pool : BrowserPool) (context : String) (now : Nat) :
    (getBrowserProfile pool context now).1 = none ↔ pool.available = [] := by
  cases h : pool.available with
  | nil => simp [getBrowserProfile, h]
  | cons p rest => simp [getBrowserProfile, h]

/-- C1.  Pool capacity invariant: from a pool initialised with
`effectivePoolSize config` slots, after every sequence of
`getBrowserProfile`/`returnBrowserProfile` calls the checked-out count never
exceeds the pool size, and the next `getBrowserProfile` returns `null`
exactly when the checked-out count equals the pool size; with pool size 3,
three allocations succeed and the fourth returns `null`. -/
theorem pool_capacity_invariant :
    (∀ (config : BotConfig) (ops : List PoolOp) (context : String) (now : Nat),
      (runPoolOps (initPool config) ops).used.length ≤ effectivePoolSize config
        ∧ ((getBrowserProfile (runPoolOps (initPool config) ops) context now).1 = none
            ↔ (runPoolOps (initPool config) ops).used.length = effectivePoolSize config))
    ∧ (let c3 : BotConfig :=
        { browser := { poolSize := some 3, userDataPath := "/tmp/profile_{__context__}_{__instance__}" } }
       let s0 := initPool c3
       let a1 := getBrowserProfile s0 "run" 0
       let a2 := getBrowserProfile a1.2 "run" 1
       let a3 := getBrowserProfile a2.2 "run" 2
       let a4 := getBrowserProfile a3.2 "run" 3
       a1.1.isSome = true ∧ a2.1.isSome = true ∧ a3.1.isSome = true ∧ a4.1 = none) := by
  constructor
  · intro config ops context now
    have hsum := runPoolOps_sum ops (initPool config)
    have hA : (initPool config).available.length = effectivePoolSize config :=
      (initPool_lengths config).1
    have hU : (initPool config).used.length = 0 := (initPool_lengths config).2
    constructor
    · omega
    · rw [getBrowserProfile_none_iff]
      constructor
      · intro h
        have hx : (runPoolOps (initPool config) ops).available.length = 0 := by
          rw [h]; rfl
        omega
      · intro h
        have hx : (runPoolOps (initPool config) ops).available.length = 0 := by omega
        exact List.length_eq_zero.mp hx
  · decide

/-! ### Eviction lemmas -/

/-- Splicing by a different instance number keeps a profile in the list. -/
theorem mem_eraseFirstInst {p : BrowserProfile} {inst : Nat} {l : List BrowserProfile}
    (hp : p ∈ l) (hne : p.instanceNum ≠ inst) : p ∈ eraseFirstInst inst l := by
  induction l with
  | nil => simp at hp
  | cons q rest ih =>
    by_cases hq : (q.instanceNum == inst) = true
    · rcases List.mem_cons.mp hp with hpq | hprest
      · exact absurd (by rw [hpq]; simpa using hq) hne
      · simpa [eraseFirstInst, hq] using hprest
    · rcases List.mem_cons.mp hp with hpq | hprest
      · simp [eraseFirstInst, hq, hpq]
      · simp [eraseFirstInst, hq, ih hprest]

/-- Releasing a profile with a different instance number keeps `p` checked
out. -/
theorem mem_returnBrowserProfile_used {p q : BrowserProfile} {pool : BrowserPool}
    {deleteFile : Bool} (hp : p ∈ pool.used) (hne : p.instanceNum ≠ q.instanceNum) :
    p ∈ (returnBrowserProfile pool q deleteFile).used := by
  unfold returnBrowserProfile
  by_cases h : containsInst q.instanceNum pool.used = true
  · simpa [h] using mem_eraseFirstInst hp hne
  · simpa [h] using hp

/-- Fold invariant of the eviction sweep: a profile whose instance number
collides with no unprotected snapshot entry is neither released nor closed. -/
theorem forceCloseStep_fold_keeps (maxTimeSeconds now : Nat) (p : BrowserProfile)
    (snapshot : List BrowserProfile) :
    ∀ (st : BrowserPool × ForceCloseResult),
      p ∈ st.1.used → p.instanceNum ∉ st.2.closedInstances →
      (∀ q ∈ snapshot, q.protectedFlag = false → q.instanceNum ≠ p.instanceNum) →
      p ∈ (snapshot.foldl (forceCloseStep maxTimeSeconds now) st).1.used
        ∧ p.instanceNum ∉ (snapshot.foldl (forceCloseStep maxTimeSeconds now) st).2.closedInstances := by
  induction snapshot with
  | nil => intro st h1 h2 _; exact ⟨h1, h2⟩
  | cons q rest ih =>
    intro st h1 h2 h3
    have hq := h3 q (List.mem_cons_self q rest)
    have hrest : ∀ r ∈ rest, r.protectedFlag = false → r.instanceNum ≠ p.instanceNum :=
      fun r hr => h3 r (List.mem_cons_of_mem q hr)
    rw [List.foldl_cons]
    apply ih
    · unfold forceCloseStep
      by_cases hage : getProfileAgeInSeconds now q ≥ maxTimeSeconds
      · by_cases hprot : q.protectedFlag = true
        · simpa [hage, hprot] using h1
        · have hne : p.instanceNum ≠ q.instanceNum :=
            fun h => (hq (by simpa using hprot) h.symm).elim
          simpa [hage, hprot] using mem_returnBrowserProfile_used h1 hne
      · simpa [hage] using h1
    · unfold forceCloseStep
      by_cases hage : getProfileAgeInSeconds now q ≥ maxTimeSeconds
      · by_cases hprot : q.protectedFlag = true
        · simpa [hage, hprot] using h2
        · have hne : q.instanceNum ≠ p.instanceNum := hq (by simpa using hprot)
          simp [hage, hprot, List.mem_append]
          exact ⟨h2, fun h => hne h.symm⟩
      · simpa [hage] using h2
    · exact hrest

/-- C2.  Protection invariant of eviction: a checked-out profile with
`protected = true` is never released nor closed by
`forceCloseBrowsersOlderThan`, whatever its age; and (Scenario E) an
unprotected slot of age 20 s against a 15 s threshold is evicted, while the
same slot marked protected is not. -/
theorem eviction_protection_invariant :
    (∀ (pool : BrowserPool) (maxTimeSeconds now : Nat) (p : BrowserProfile),
      (pool.used.map (fun q => q.instanceNum)).Nodup →
      p ∈ pool.used → p.protectedFlag = true →
      p ∈ (forceCloseBrowsersOlderThan pool maxTimeSeconds now).1.used
        ∧ p.instanceNum ∉ (forceCloseBrowsersOlderThan pool maxTimeSeconds now).2.closedInstances)
    ∧ (let cfg : BotConfig := { browser := { poolSize := some 1, userDataPath := "/tmp/p_{__instance__}" } }
       let slotE : BrowserProfile :=
         { profile := "/tmp/p_01", pid := "/tmp/p_01/pid.txt", instanceNum := 1,
           browser := some 7, usedSince := some 0, protectedFlag := false }
       let poolE : BrowserPool := { available := [], used := [slotE], config := cfg }
       let slotP : BrowserProfile := { slotE with protectedFlag := true }
       let poolP : BrowserPool := { available := [], used := [slotP], config := cfg }
       ((forceCloseBrowsersOlderThan poolE 15 20000).2.closed = 1
          ∧ (forceCloseBrowsersOlderThan poolE 15 20000).1.used = [])
        ∧ ((forceCloseBrowsersOlderThan poolP 15 20000).2.closed = 0
          ∧ (forceCloseBrowsersOlderThan poolP 15 20000).1.used = [slotP])) := by
  constructor
  · intro pool maxTimeSeconds now p hnodup hp hprot
    have hinj := List.inj_on_of_nodup_map hnodup
    apply forceCloseStep_fold_keeps
    · exact hp
    · simp
    · intro q hq hqprot hqeq
      have heq : q = p := hinj hq hp hqeq
      rw [heq, hprot] at hqprot
      exact Bool.noConfusion hqprot
  · decide

/-- Witness for C2: a concrete protected slot of age 999 s survives an
eviction sweep with threshold 1 s. -/
theorem eviction_protection_invariant_witness :
    (let slotP : BrowserProfile :=
      { profile := "/tmp/p_01", pid := "/tmp/p_01/pid.txt", instanceNum := 1,
        browser := some 7, usedSince := some 0, protectedFlag := true }
     let poolP : BrowserPool :=
      { available := [], used := [slotP],
        config := { browser := { poolSize := some 1, userDataPath := "/tmp/p_{__instance__}" } } }
     ((poolP.used.map (fun q => q.instanceNum)).Nodup
        ∧ slotP ∈ poolP.used ∧ slotP.protectedFlag = true)
      ∧ slotP ∈ (forceCloseBrowsersOlderThan poolP 1 999999).1.used) := by
  refine ⟨⟨by decide, by decide, by decide⟩, ?_⟩
  exact (eviction_protection_invariant.1 _ 1 999999 _ (by decide) (by decide) (by decide)).1

/-! ### Release semantics -/

/-- C7.  Idempotent release: returning a profile whose instance number is
not among the checked-out profiles leaves the pool state entirely
unchanged (the source only logs a warning in that case). -/
theorem return_already_available_idempotent (pool : BrowserPool)
    (profile : BrowserProfile) (deleteFile : Bool)
    (h : containsInst profile.instanceNum pool.used = false) :
    returnBrowserProfile pool profile deleteFile = pool := by
  unfold returnBrowserProfile
  simp [h]

/-- Witness for C7: releasing the sole available slot of a freshly
initialised pool is a no-op. -/
theorem return_already_available_idempotent_witness :
    (let cfg : BotConfig := { browser := { poolSize := some 1, userDataPath := "/tmp/q_{__instance__}" } }
     let slotA : BrowserProfile :=
      { profile := "/tmp/q_01", pid := "/tmp/q_01/pid.txt", instanceNum := 1,
        browser := none, usedSince := none, protectedFlag := false }
     let poolA : BrowserPool := { available := [slotA], used := [], config := cfg }
     containsInst slotA.instanceNum poolA.used = false
      ∧ returnBrowserProfile poolA slotA true = poolA) := by
  exact ⟨by decide, return_already_available_idempotent _ _ true (by decide)⟩

/-- Counterexample for C6: a checked-out slot with `protected = true` that
is released keeps `protected = true` in the available list — the release
path performs no assignment to the `protected` field, contradicting the
claim that the flag is cleared. -/
theorem release_protected_not_cleared_counterexample :
    (let cfg : BotConfig := { browser := { poolSize := some 1, userDataPath := "/tmp/r_{__instance__}" } }
     let slotC : BrowserProfile :=
      { profile := "/tmp/r_01_run", pid := "/tmp/r_01_run/pid.txt", instanceNum := 1,
        browser := some 9, usedSince := some 5000, protectedFlag := true }
     let poolC : BrowserPool := { available := [], used := [slotC], config := cfg }
     containsInst slotC.instanceNum poolC.used = true
      ∧ (returnBrowserProfile poolC slotC true).available.map (fun p => p.protectedFlag) = [true]
      ∧ (returnBrowserProfile poolC slotC true).used = []) := by
  constructor
  · decide
  · constructor
    · rfl
    · rfl

/-- C6 (amended).  Release resets the slot's profile and PID paths to the
un-parameterised templates, clears the browser handle and `usedSince`,
splices the slot out of `used` and appends it to `available`; the
`protected` flag is carried over unchanged (it is not cleared). -/
theorem return_resets_slot_fields (pool : BrowserPool) (profile : BrowserProfile)
    (deleteFile : Bool) (h : containsInst profile.instanceNum pool.used = true) :
    (returnBrowserProfile pool profile deleteFile).available
      = pool.available ++
        [{ profile with
            profile := getProfilePath pool.config (padStart2 profile.instanceNum)
            pid := getPidFilePath pool.config (padStart2 profile.instanceNum)
            browser := none
            usedSince := none
            protectedFlag := profile.protectedFlag }]
      ∧ (returnBrowserProfile pool profile deleteFile).used
          = eraseFirstInst profile.instanceNum pool.used := by
  unfold returnBrowserProfile resetReturnedProfile
  simp [h]

/-- Witness for C6 (amended): concrete release of a checked-out protected
slot. -/
theorem return_resets_slot_fields_witness :
    (let cfg : BotConfig := { browser := { poolSize := some 1, userDataPath := "/tmp/r_{__instance__}" } }
     let slotC : BrowserProfile :=
      { profile := "/tmp/r_01_run", pid := "/tmp/r_01_run/pid.txt", instanceNum := 1,
        browser := some 9, usedSince := some 5000, protectedFlag := true }
     let poolC : BrowserPool := { available := [], used := [slotC], config := cfg }
     containsInst slotC.instanceNum poolC.used = true
      ∧ (returnBrowserProfile poolC slotC true).available
          = poolC.available ++
            [{ slotC with
                profile := getProfilePath poolC.config (padStart2 slotC.instanceNum)
                pid := getPidFilePath poolC.config (padStart2 slotC.instanceNum)
                browser := none
                usedSince := none
                protectedFlag := slotC.protectedFlag }]) := by
  exact ⟨by decide, (return_resets_slot_fields _ _ true (by decide)).1⟩

/-! ### Protection lifecycle of `testIntegrated` (src/test-integrated.ts)

`testIntegrated` declares `let profile: any = null` in its outer scope
(line 199) and then, inside the `try` block, declares a NEW block-scoped
binding `const profile = browserResult.profile` (line 286) that shadows the
outer one.  The protection set-up (line 290) and the normal-completion
unprotect (line 738) read the inner binding; the `finally` block's
unprotect (lines 747-749) reads the outer binding, which is still `null`.
The model below threads the slot's `protected` flag through these steps. -/

/-- Final value of the pool slot's `protected` flag after a `testIntegrated`
run.  `hasProfile` says whether `initBrowser` delivered a pool profile,
`bodyThrows` whether the `try` body raised after protection was set (so the
unprotect at line 738 is skipped), `protected0` the flag's initial value. -/
def testIntegratedProtectedFlag (hasProfile : Bool) (bodyThrows : Bool)
    (protected0 : Bool) : Bool :=
  let outerProfile : Option Unit := none
  let innerProfile : Option Unit := if hasProfile then some () else none
  let flag1 : Bool := if innerProfile.isSome then true else protected0
  let flag2 : Bool :=
    if bodyThrows then flag1 else if innerProfile.isSome then false else flag1
  match outerProfile with
  | some _ => false
  | none => flag2

/-- C5.  The slot protected at run start stays protected when the run
terminates with an error: the cleanup in the `finally` block is guarded by
the outer, still-null `profile` binding, so it never fires; only the
normal-completion path (inside the `try` block) clears the flag. -/
theorem protection_not_cleared_on_error :
    testIntegratedProtectedFlag true true false = true
      ∧ testIntegratedProtectedFlag true false false = false := by
  decide

/-! ### Order-code tracker (`orderCodeTracking` shared across accounts) -/

/-- The global `orderCodeTracking` object of `testIntegrated`. -/
structure OrderCodeTracking where
  valid : List String
  processed : List String
  notFound : List String
deriving DecidableEq

/-- Helper for JS `[...new Set(l)]`: keep the first occurrence of each
element, preserving insertion order (`seen` collects codes already kept). -/
def dedupAux (seen : List String) : List String → List String
  | [] => []
  | c :: rest =>
    if seen.contains c then dedupAux seen rest
    else c :: dedupAux (c :: seen) rest

/-- JS `[...new Set(l)]`. -/
def dedupFirst (l : List String) : List String := dedupAux [] l

/-- Loop body of the `notFound` merge in `testIntegrated` (lines 564-568):
append a pass-local not-found code only when it is neither processed nor
already recorded. -/
def pushNotFound (processedSet nf : List String) (code : String) : List String :=
  if processedSet.contains code || nf.contains code then nf else nf ++ [code]

/-- Per-account tracker update of `testIntegrated` (lines 552-569): union
the pass's processed codes into the global `processed` (Set semantics),
drop every now-processed code from `notFound`, then merge the pass's
not-found codes, skipping processed or duplicate entries.  `valid` is not
touched. -/
def updateTracking (t : OrderCodeTracking) (passProcessed passNotFound : List String) :
    OrderCodeTracking :=
  let processed := dedupFirst (t.processed ++ passProcessed)
  let notFound1 := t.notFound.filter (fun c => !(processed.contains c))
  let notFound := passNotFound.foldl (pushNotFound processed) notFound1
  { t with processed := processed, notFound := notFound }

/-- A whole multi-account run over the tracker: one `updateTracking` per
account pass (`(found, notFound)` pairs). -/
def runAccountPasses (t : OrderCodeTracking)
    (passes : List (List String × List String)) : OrderCodeTracking :=
  passes.foldl (fun t pr => updateTracking t pr.1 pr.2) t

/-- Membership in the dedup helper. -/
theorem mem_dedupAux (a : String) :
    ∀ (l seen : List String), a ∈ dedupAux seen l ↔ (a ∈ l ∧ a ∉ seen) := by
  intro l
  induction l with
  | nil => intro seen; simp [dedupAux]
  | cons c rest ih =>
    intro seen
    by_cases h : seen.contains c = true
    · have hc : c ∈ seen := by simpa using h
      simp only [dedupAux, h, if_true]
      rw [ih seen, List.mem_cons]
      constructor
      · rintro ⟨h1, h2⟩; exact ⟨Or.inr h1, h2⟩
      · rintro ⟨h1, h2⟩
        rcases h1 with rfl | h1
        · exact absurd hc h2
        · exact ⟨h1, h2⟩
    · have h' : seen.contains c = false := by simpa using h
      have hcnot : c ∉ seen := fun hm => h (by simpa using hm)
      simp only [dedupAux, h', Bool.false_eq_true, if_false]
      simp only [List.mem_cons]
      rw [ih (c :: seen)]
      simp only [List.mem_cons]
      constructor
      · rintro (rfl | ⟨h1, h2⟩)
        · exact ⟨Or.inl rfl, hcnot⟩
        · exact ⟨Or.inr h1, fun hm => h2 (Or.inr hm)⟩
      · rintro ⟨hor, h2⟩
        rcases hor with hac | h1
        · exact Or.inl hac
        · by_cases hac : a = c
          · exact Or.inl hac
          · exact Or.inr ⟨h1, fun hm => hm.elim hac h2⟩


/-- Membership in the JS-Set dedup is membership in the original list. -/
theorem mem_dedupFirst (a : String) (l : List String) : a ∈ dedupFirst l ↔ a ∈ l := by
  simpa [dedupFirst] using mem_dedupAux a l []

/-- The `notFound` merge loop never introduces a processed code. -/
theorem foldl_pushNotFound_not_processed (processed : List String) :
    ∀ (nfs base : List String), (∀ c ∈ base, c ∉ processed) →
      ∀ c ∈ nfs.foldl (pushNotFound processed) base, c ∉ processed := by
  intro nfs
  induction nfs with
  | nil => intro base hbase; simpa using hbase
  | cons n rest ih =>
    intro base hbase
    rw [List.foldl_cons]
    apply ih
    intro c hc
    unfold pushNotFound at hc
    by_cases hcond : (processed.contains n || base.contains n) = true
    · rw [if_pos hcond] at hc
      exact hbase c hc
    · rw [if_neg hcond] at hc
      rcases List.mem_append.mp hc with h1 | h1
      · exact hbase c h1
      · have hcn : c = n := by simpa using h1
        subst hcn
        have hnp : c ∉ processed ∧ c ∉ base := by simpa using hcond
        exact hnp.1

/-- After one account's update, `processed` and `notFound` are disjoint. -/
theorem updateTracking_disjoint (t : OrderCodeTracking) (pp nf : List String)
    (c : String) (h : c ∈ (updateTracking t pp nf).notFound) :
    c ∉ (updateTracking t pp nf).processed := by
  simp only [updateTracking] at h ⊢
  refine foldl_pushNotFound_not_processed _ nf _ ?_ c h
  intro d hd
  have hfilt := (List.mem_filter.mp hd).2
  simpa using hfilt

/-- Every code located in a pass ends up in `processed`. -/
theorem updateTracking_mem_pass (t : OrderCodeTracking) (pp nf : List String)
    (c : String) (h : c ∈ pp) : c ∈ (updateTracking t pp nf).processed := by
  simp only [updateTracking]
  rw [mem_dedupFirst]
  exact List.mem_append.mpr (Or.inr h)

/-- One update never drops a previously processed code. -/
theorem updateTracking_processed_mono (t : OrderCodeTracking) (pp nf : List String)
    (c : String) (h : c ∈ t.processed) : c ∈ (updateTracking t pp nf).processed := by
  simp only [updateTracking]
  rw [mem_dedupFirst]
  exact List.mem_append.mpr (Or.inl h)

/-- The per-account update never touches `valid`. -/
theorem updateTracking_valid (t : OrderCodeTracking) (pp nf : List String) :
    (updateTracking t pp nf).valid = t.valid := rfl

/-- Across a whole run, `processed` is monotone. -/
theorem runAccountPasses_processed_mono (passes : List (List String × List String)) :
    ∀ (t : OrderCodeTracking) (c : String), c ∈ t.processed →
      c ∈ (runAccountPasses t passes).processed := by
  induction passes with
  | nil => intro t c h; exact h
  | cons pass rest ih =>
    intro t c h
    exact ih _ c (updateTracking_processed_mono t pass.1 pass.2 c h)

/-- Across a whole run, `valid` is never mutated. -/
theorem runAccountPasses_valid (passes : List (List String × List String)) :
    ∀ (t : OrderCodeTracking), (runAccountPasses t passes).valid = t.valid := by
  induction passes with
  | nil => intro t; rfl
  | cons pass rest ih =>
    intro t
    rw [runAccountPasses, List.foldl_cons]
    exact (ih (updateTracking t pass.1 pass.2)).trans
      (updateTracking_valid t pass.1 pass.2)

/-- Appending one more pass to a run is one more update. -/
theorem runAccountPasses_append_one (t : OrderCodeTracking)
    (passes : List (List String × List String)) (pass : List String × List String) :
    runAccountPasses t (passes ++ [pass])
      = updateTracking (runAccountPasses t passes) pass.1 pass.2 := by
  simp [runAccountPasses, List.foldl_append]

/-- C3.  Tracker partition invariant: after every account's pass the global
`processed` and `notFound` code lists are disjoint; a code located in a
pass lands in `processed`; `processed` only ever grows over the run; and
`valid` is never mutated after initialisation. -/
theorem tracker_partition_invariant :
    (∀ (t : OrderCodeTracking) (pp nf : List String) (c : String),
        c ∈ (updateTracking t pp nf).notFound → c ∉ (updateTracking t pp nf).processed)
      ∧ (∀ (t : OrderCodeTracking) (pp nf : List String) (c : String),
          c ∈ pp → c ∈ (updateTracking t pp nf).processed)
      ∧ (∀ (t : OrderCodeTracking) (passes : List (List String × List String)) (c : String),
          c ∈ t.processed → c ∈ (runAccountPasses t passes).processed)
      ∧ (∀ (t : OrderCodeTracking) (passes : List (List String × List String)),
          (runAccountPasses t passes).valid = t.valid)
      ∧ (∀ (t : OrderCodeTracking) (passes : List (List String × List String))
          (pass : List String × List String) (c : String),
          c ∈ (runAccountPasses t (passes ++ [pass])).notFound →
            c ∉ (runAccountPasses t (passes ++ [pass])).processed) :=
  ⟨updateTracking_disjoint,
   updateTracking_mem_pass,
   fun t passes c h => runAccountPasses_processed_mono passes t c h,
   fun t passes => runAccountPasses_valid passes t,
   fun t passes pass c h => by
     rw [runAccountPasses_append_one] at h ⊢
     exact updateTracking_disjoint _ pass.1 pass.2 c h⟩

/-- Witness for C3: over the universe A, B an account finds A and misses B;
afterwards B is recorded not-found and is not processed. -/
theorem tracker_partition_invariant_witness :
    ("B" ∈ (updateTracking ⟨["A", "B"], [], []⟩ ["A"] ["B"]).notFound)
      ∧ "B" ∉ (updateTracking ⟨["A", "B"], [], []⟩ ["A"] ["B"]).processed :=
  ⟨by decide, tracker_partition_invariant.1 _ ["A"] ["B"] "B" (by decide)⟩

/-! ### Login retry orchestration (`testIntegrated`, lines 365-433) -/

/-- 4 total attempts: 1 initial + 3 retries. -/
def MAX_LOGIN_ATTEMPTS : Nat := 4

/-- The sign-in entry page URL used by `testIntegrated`. -/
def signInUrl : String := "https://www.ezcater.com/caterer_portal/sign_in"

/-- The guard pattern used around every attempt: navigate to the sign-in
page when the current URL does not already include "/sign_in". -/
def ensureSignIn (url : String) : String :=
  if includesSubstr url "/sign_in" then url else signInUrl

/-- Observable trace of one login attempt inside the retry loop. -/
structure AttemptRecord where
  idx : Nat
  logoutRan : Bool
  urlAtLogin : String
  success : Bool
  waitAfterMs : Option Nat
deriving DecidableEq

/-- The retry loop body, fuel-indexed (`fuel` starts at
`MAX_LOGIN_ATTEMPTS`, `attempt` at 1).  Per iteration: re-ensure the
sign-in page; for attempts after the first, run `performLogout` (whose
resulting URL is the oracle `logoutUrl`) and re-ensure the sign-in page;
run `performLogin` (oracle `attemptResult`); on failure before the last
attempt wait `3000 + attempt * 1000` ms and continue from wherever the
failed login left the page (oracle `postLoginUrl`). -/
def loginRetryAux (attemptResult : Nat → Bool) (logoutUrl postLoginUrl : Nat → String) :
    Nat → Nat → String → List AttemptRecord → List AttemptRecord × Bool
  | 0, _, _, acc => (acc.reverse, false)
  | fuel + 1, attempt, url, acc =>
    let url1 := ensureSignIn url
    let logoutRan : Bool := if 1 < attempt then true else false
    let url2 := if 1 < attempt then ensureSignIn (logoutUrl attempt) else url1
    if attemptResult attempt then
      (((⟨attempt, logoutRan, url2, true, none⟩ : AttemptRecord) :: acc).reverse, true)
    else
      let waitAfterMs :=
        if attempt < MAX_LOGIN_ATTEMPTS then some (3000 + attempt * 1000) else none
      loginRetryAux attemptResult logoutUrl postLoginUrl fuel (attempt + 1)
        (postLoginUrl attempt)
        (⟨attempt, logoutRan, url2, false, waitAfterMs⟩ :: acc)

/-- The whole per-account login retry loop of `testIntegrated`. -/
def loginRetry (attemptResult : Nat → Bool) (logoutUrl postLoginUrl : Nat → String)
    (startUrl : String) : List AttemptRecord × Bool :=
  loginRetryAux attemptResult logoutUrl postLoginUrl MAX_LOGIN_ATTEMPTS 1 startUrl []

/-- The account loop: accounts whose login retry fails are appended to
`accountsWithLoginIssues` (second component) and the loop continues with
the next account; successful ones are processed (first component). -/
def processAccountsAux (res : String → Nat → Bool) (lo po : String → Nat → String) :
    List String → List String × List String → List String × List String
  | [], acc => acc
  | a :: rest, acc =>
    if (loginRetry (res a) (lo a) (po a) signInUrl).2 then
      processAccountsAux res lo po rest (acc.1 ++ [a], acc.2)
    else
      processAccountsAux res lo po rest (acc.1, acc.2 ++ [a])

/-- Run the account loop from an empty state. -/
def processAccounts (accounts : List String) (res : String → Nat → Bool)
    (lo po : String → Nat → String) : List String × List String :=
  processAccountsAux res lo po accounts ([], [])

/-- After the ensure step the page is always at the sign-in entry page. -/
theorem ensureSignIn_includes (url : String) :
    includesSubstr (ensureSignIn url) "/sign_in" = true := by
  by_cases h : includesSubstr url "/sign_in" = true
  · simp [ensureSignIn, h]
  · have h' : includesSubstr url "/sign_in" = false := by simpa using h
    simp only [ensureSignIn, h', Bool.false_eq_true, if_false]
    decide

/-- The retry loop emits at most `fuel` new records. -/
theorem loginRetryAux_length (res : Nat → Bool) (lo po : Nat → String) :
    ∀ (fuel attempt : Nat) (url : String) (acc : List AttemptRecord),
      (loginRetryAux res lo po fuel attempt url acc).1.length ≤ acc.length + fuel := by
  intro fuel
  induction fuel with
  | zero =>
    intro attempt url acc
    simp [loginRetryAux]
  | succ fuel ih =>
    intro attempt url acc
    by_cases hok : res attempt = true
    · simp [loginRetryAux, hok]
    · have hok' : res attempt = false := by simpa using hok
      simp only [loginRetryAux, hok', Bool.false_eq_true, if_false]
      have := ih (attempt + 1) (po attempt)
        (⟨attempt, if 1 < attempt then true else false,
          if 1 < attempt then ensureSignIn (lo attempt) else ensureSignIn url, false,
          if attempt < MAX_LOGIN_ATTEMPTS then some (3000 + attempt * 1000) else none⟩ :: acc)
      simp at this ⊢
      omega

/-- Every record of the retry loop satisfies the cleanup, navigation and
backoff properties. -/
theorem loginRetryAux_records (res : Nat → Bool) (lo po : Nat → String) :
    ∀ (fuel attempt : Nat) (url : String) (acc : List AttemptRecord),
      (∀ r ∈ acc,
        (2 ≤ r.idx → r.logoutRan = true)
          ∧ includesSubstr r.urlAtLogin "/sign_in" = true
          ∧ (r.success = false → r.idx < MAX_LOGIN_ATTEMPTS →
              r.waitAfterMs = some (3000 + r.idx * 1000))) →
      ∀ r ∈ (loginRetryAux res lo po fuel attempt url acc).1,
        (2 ≤ r.idx → r.logoutRan = true)
          ∧ includesSubstr r.urlAtLogin "/sign_in" = true
          ∧ (r.success = false → r.idx < MAX_LOGIN_ATTEMPTS →
              r.waitAfterMs = some (3000 + r.idx * 1000)) := by
  intro fuel
  induction fuel with
  | zero =>
    intro attempt url acc hacc r hr
    simp only [loginRetryAux] at hr
    exact hacc r (by simpa using hr)
  | succ fuel ih =>
    intro attempt url acc hacc r hr
    have hnewQ : ∀ (s : Bool) (w : Option Nat),
        (s = false → attempt < MAX_LOGIN_ATTEMPTS → w = some (3000 + attempt * 1000)) →
        ((2 ≤ (⟨attempt, if 1 < attempt then true else false,
            if 1 < attempt then ensureSignIn (lo attempt) else ensureSignIn url, s, w⟩ :
              AttemptRecord).idx →
          (⟨attempt, if 1 < attempt then true else false,
            if 1 < attempt then ensureSignIn (lo attempt) else ensureSignIn url, s, w⟩ :
              AttemptRecord).logoutRan = true)
          ∧ includesSubstr (⟨attempt, if 1 < attempt then true else false,
              if 1 < attempt then ensureSignIn (lo attempt) else ensureSignIn url, s, w⟩ :
                AttemptRecord).urlAtLogin "/sign_in" = true
          ∧ ((⟨attempt, if 1 < attempt then true else false,
              if 1 < attempt then ensureSignIn (lo attempt) else ensureSignIn url, s, w⟩ :
                AttemptRecord).success = false →
              (⟨attempt, if 1 < attempt then true else false,
                if 1 < attempt then ensureSignIn (lo attempt) else ensureSignIn url, s, w⟩ :
                  AttemptRecord).idx < MAX_LOGIN_ATTEMPTS →
              (⟨attempt, if 1 < attempt then true else false,
                if 1 < attempt then ensureSignIn (lo attempt) else ensureSignIn url, s, w⟩ :
                  AttemptRecord).waitAfterMs = some (3000 + attempt * 1000))) := by
      intro s w hw
      refine ⟨?_, ?_, ?_⟩
      · intro h2
        have h2' : 2 ≤ attempt := by simpa using h2
        have h1 : 1 < attempt := by omega
        simp [h1]
      · by_cases h1 : 1 < attempt
        · simp only [h1, if_true]
          exact ensureSignIn_includes (lo attempt)
        · simp only [h1, if_false]
          exact ensureSignIn_includes url
      · exact hw
    by_cases hok : res attempt = true
    · simp only [loginRetryAux, hok, if_true] at hr
      rw [List.mem_reverse, List.mem_cons] at hr
      rcases hr with rfl | hr
      · exact hnewQ true none (fun h _ => absurd h (by simp))
      · exact hacc r hr
    · have hok' : res attempt = false := by simpa using hok
      simp only [loginRetryAux, hok', Bool.false_eq_true, if_false] at hr
      refine ih (attempt + 1) (po attempt) _ ?_ r hr
      intro r' hr'
      rcases List.mem_cons.mp hr' with rfl | hr'
      · refine hnewQ false _ ?_
        intro _ hlt
        simp [hlt]
      · exact hacc r' hr'

/-- Account-loop bookkeeping: membership is preserved and extended. -/
theorem processAccountsAux_mem (res : String → Nat → Bool) (lo po : String → Nat → String) :
    ∀ (l : List String) (acc : List String × List String) (a : String),
      (a ∈ l ∨ a ∈ acc.1 ∨ a ∈ acc.2) →
      a ∈ (processAccountsAux res lo po l acc).1
        ∨ a ∈ (processAccountsAux res lo po l acc).2 := by
  intro l
  induction l with
  | nil =>
    intro acc a h
    rcases h with h | h | h
    · simp at h
    · exact Or.inl h
    · exact Or.inr h
  | cons b rest ih =>
    intro acc a h
    by_cases hb : (loginRetry (res b) (lo b) (po b) signInUrl).2 = true
    · simp only [processAccountsAux, hb, if_true]
      apply ih
      rcases h with h | h | h
      · rcases List.mem_cons.mp h with rfl | h'
        · exact Or.inr (Or.inl (by simp))
        · exact Or.inl h'
      · exact Or.inr (Or.inl (by simp [h]))
      · exact Or.inr (Or.inr h)
    · have hb' : (loginRetry (res b) (lo b) (po b) signInUrl).2 = false := by simpa using hb
      simp only [processAccountsAux, hb', Bool.false_eq_true, if_false]
      apply ih
      rcases h with h | h | h
      · rcases List.mem_cons.mp h with rfl | h'
        · exact Or.inr (Or.inr (by simp))
        · exact Or.inl h'
      · exact Or.inr (Or.inl h)
      · exact Or.inr (Or.inr (by simp [h]))

/-- Once recorded as failed-to-authenticate, an account stays recorded. -/
theorem processAccountsAux_keep2 (res : String → Nat → Bool) (lo po : String → Nat → String) :
    ∀ (l : List String) (acc : List String × List String) (a : String),
      a ∈ acc.2 → a ∈ (processAccountsAux res lo po l acc).2 := by
  intro l
  induction l with
  | nil => intro acc a h; exact h
  | cons b rest ih =>
    intro acc a h
    by_cases hb : (loginRetry (res b) (lo b) (po b) signInUrl).2 = true
    · simp only [processAccountsAux, hb, if_true]
      exact ih _ a h
    · have hb' : (loginRetry (res b) (lo b) (po b) signInUrl).2 = false := by simpa using hb
      simp only [processAccountsAux, hb', Bool.false_eq_true, if_false]
      exact ih _ a (by simp [h])

/-- An account whose whole retry loop fails is recorded in
`accountsWithLoginIssues`. -/
theorem processAccountsAux_failed (res : String → Nat → Bool) (lo po : String → Nat → String) :
    ∀ (l : List String) (acc : List String × List String) (a : String),
      a ∈ l → (loginRetry (res a) (lo a) (po a) signInUrl).2 = false →
      a ∈ (processAccountsAux res lo po l acc).2 := by
  intro l
  induction l with
  | nil => intro acc a h; simp at h
  | cons b rest ih =>
    intro acc a h hfail
    rcases List.mem_cons.mp h with rfl | h'
    · simp only [processAccountsAux, hfail, Bool.false_eq_true, if_false]
      exact processAccountsAux_keep2 res lo po rest _ a (by simp)
    · by_cases hb : (loginRetry (res b) (lo b) (po b) signInUrl).2 = true
      · simp only [processAccountsAux, hb, if_true]
        exact ih _ a h' hfail
      · have hb' : (loginRetry (res b) (lo b) (po b) signInUrl).2 = false := by simpa using hb
        simp only [processAccountsAux, hb', Bool.false_eq_true, if_false]
        exact ih _ a h' hfail

/-- C4.  Retry bound and cleanup: the loop runs at most 4 login attempts;
before every attempt after the first a logout runs; every attempt starts
with the page at the sign-in entry page; a failed non-final attempt is
followed by a `3000 + attempt * 1000` ms wait; and an account whose four
attempts all fail is recorded as failed-to-authenticate while every other
account is still visited (the run is not aborted). -/
theorem login_retry_bound_and_cleanup :
    (∀ (attemptResult : Nat → Bool) (logoutUrl postLoginUrl : Nat → String) (startUrl : String),
      (loginRetry attemptResult logoutUrl postLoginUrl startUrl).1.length ≤ MAX_LOGIN_ATTEMPTS
        ∧ (∀ r ∈ (loginRetry attemptResult logoutUrl postLoginUrl startUrl).1,
            (2 ≤ r.idx → r.logoutRan = true)
              ∧ includesSubstr r.urlAtLogin "/sign_in" = true
              ∧ (r.success = false → r.idx < MAX_LOGIN_ATTEMPTS →
                  r.waitAfterMs = some (3000 + r.idx * 1000))))
      ∧ (∀ (accounts : List String) (res : String → Nat → Bool)
          (lo po : String → Nat → String) (a : String), a ∈ accounts →
          ((loginRetry (res a) (lo a) (po a) signInUrl).2 = false →
              a ∈ (processAccounts accounts res lo po).2)
            ∧ (a ∈ (processAccounts accounts res lo po).1
                ∨ a ∈ (processAccounts accounts res lo po).2)) := by
  constructor
  · intro attemptResult logoutUrl postLoginUrl startUrl
    constructor
    · simpa [loginRetry] using
        loginRetryAux_length attemptResult logoutUrl postLoginUrl MAX_LOGIN_ATTEMPTS 1 startUrl []
    · exact loginRetryAux_records attemptResult logoutUrl postLoginUrl MAX_LOGIN_ATTEMPTS 1
        startUrl [] (by simp)
  · intro accounts res lo po a ha
    exact ⟨processAccountsAux_failed res lo po accounts ([], []) a ha,
      processAccountsAux_mem res lo po accounts ([], []) a (Or.inl ha)⟩

/-- Witness for C4: with an always-failing login, attempt 2's record shows
the logout ran, the attempt started at the sign-in page, and the wait after
attempt 2 was 5000 ms. -/
theorem login_retry_bound_and_cleanup_witness :
    ((⟨2, true, signInUrl, false, some 5000⟩ : AttemptRecord)
        ∈ (loginRetry (fun _ => false) (fun _ => "x") (fun _ => "y") "z").1)
      ∧ (⟨2, true, signInUrl, false, some 5000⟩ : AttemptRecord).logoutRan = true
      ∧ includesSubstr (⟨2, true, signInUrl, false, some 5000⟩ : AttemptRecord).urlAtLogin
          "/sign_in" = true :=
  ⟨by decide,
   ((login_retry_bound_and_cleanup.1 (fun _ => false) (fun _ => "x") (fun _ => "y") "z").2
      _ (by decide)).1 (by decide),
   (((login_retry_bound_and_cleanup.1 (fun _ => false) (fun _ => "x") (fun _ => "y") "z").2
      _ (by decide)).2).1⟩

/-! ### Verification-code acquisition (`performLogin`, lines 4518-4569)

Primary source: `getVerificationCodeFromGmailAPI`; fallback:
`getVerificationCodeFromGmail` (Puppeteer).  The fallback is guarded by
`attempt < maxRetries`, so it is not consulted on the final attempt. -/

/-- Which sources one iteration of the acquisition loop consulted. -/
structure CodeAttempt where
  attempt : Nat
  apiTried : Bool
  fallbackTried : Bool
deriving DecidableEq

/-- The acquisition retry loop, fuel-indexed (`fuel` starts at
`maxRetries`, `attempt` at 1).  `apiCode`/`puppeteerCode` are the oracles
for the two sources' per-attempt results. -/
def acquireAux (canUseGmailAPI : Bool) (maxRetries : Nat)
    (apiCode puppeteerCode : Nat → Option String) :
    Nat → Nat → List CodeAttempt → Option String × List CodeAttempt
  | 0, _, acc => (none, acc.reverse)
  | fuel + 1, attempt, acc =>
    if canUseGmailAPI then
      match apiCode attempt with
      | some c => (some c, ((⟨attempt, true, false⟩ : CodeAttempt) :: acc).reverse)
      | none =>
        if attempt < maxRetries then
          match puppeteerCode attempt with
          | some c => (some c, ((⟨attempt, true, true⟩ : CodeAttempt) :: acc).reverse)
          | none =>
            acquireAux canUseGmailAPI maxRetries apiCode puppeteerCode fuel (attempt + 1)
              (⟨attempt, true, true⟩ :: acc)
        else
          acquireAux canUseGmailAPI maxRetries apiCode puppeteerCode fuel (attempt + 1)
            (⟨attempt, true, false⟩ :: acc)
    else
      match puppeteerCode attempt with
      | some c => (some c, ((⟨attempt, false, true⟩ : CodeAttempt) :: acc).reverse)
      | none =>
        acquireAux canUseGmailAPI maxRetries apiCode puppeteerCode fuel (attempt + 1)
          (⟨attempt, false, true⟩ :: acc)

/-- The whole acquisition loop (`maxRetries` is
`gmailConfig.maxCodeRetries || 3`). -/
def acquireVerificationCode (canUseGmailAPI : Bool) (maxRetries : Nat)
    (apiCode puppeteerCode : Nat → Option String) : Option String × List CodeAttempt :=
  acquireAux canUseGmailAPI maxRetries apiCode puppeteerCode maxRetries 1 []

/-- Outcome of the code-submission phase of `performLogin`: with no code the
attempt fails; with a code it is typed and submitted, and the attempt
result is the `isLoggedIn` re-check (or success when no logged-in indicator
is configured). -/
structure CodePhaseOutcome where
  submitted : Option String
  success : Bool
  error : Option String
deriving DecidableEq

/-- Lines 4571-4663 of `performLogin`. -/
def performLoginCodePhase (acquired : Option String) (loggedInAfter : Bool)
    (loggedInIndicatorConfigured : Bool) : CodePhaseOutcome :=
  match acquired with
  | none => ⟨none, false, some "Could not retrieve verification code from Gmail"⟩
  | some c =>
    if loggedInAfter then ⟨some c, true, none⟩
    else if !loggedInIndicatorConfigured then ⟨some c, true, none⟩
    else ⟨some c, false, some "Login verification failed"⟩

/-- Counterexample for C8: with the default 3 acquisition attempts, a
primary source that always returns null, and a secondary source that would
return "482913" on attempt 3, the final attempt does not consult the
secondary source and the whole acquisition fails — the fallback is NOT
tried on every attempt. -/
theorem code_fallback_counterexample :
    (acquireVerificationCode true 3 (fun _ => none)
        (fun a => if a == 3 then some "482913" else none)).2
      = [⟨1, true, true⟩, ⟨2, true, true⟩, ⟨3, true, false⟩]
      ∧ (acquireVerificationCode true 3 (fun _ => none)
          (fun a => if a == 3 then some "482913" else none)).1 = none
      ∧ (fun a => if a == 3 then some "482913" else none) 3 = some "482913" := by
  decide

/-- In the acquisition loop, the fallback is consulted on every non-final
attempt whose primary result was null. -/
theorem acquireAux_fallback (maxRetries : Nat) (apiCode puppeteerCode : Nat → Option String) :
    ∀ (fuel attempt : Nat) (acc : List CodeAttempt),
      (∀ r ∈ acc, apiCode r.attempt = none → r.attempt < maxRetries → r.fallbackTried = true) →
      ∀ r ∈ (acquireAux true maxRetries apiCode puppeteerCode fuel attempt acc).2,
        apiCode r.attempt = none → r.attempt < maxRetries → r.fallbackTried = true := by
  intro fuel
  induction fuel with
  | zero =>
    intro attempt acc hacc r hr
    simp only [acquireAux] at hr
    exact hacc r (by simpa using hr)
  | succ fuel ih =>
    intro attempt acc hacc r hr
    cases happi : apiCode attempt with
    | some c =>
      simp only [acquireAux, happi, if_true] at hr
      rw [List.mem_reverse, List.mem_cons] at hr
      rcases hr with rfl | hr
      · intro habs
        rw [happi] at habs
        exact absurd habs (by simp)
      · exact hacc r hr
    | none =>
      by_cases hlt : attempt < maxRetries
      · cases hpup : puppeteerCode attempt with
        | some c =>
          simp only [acquireAux, happi, hlt, hpup, if_true] at hr
          rw [List.mem_reverse, List.mem_cons] at hr
          rcases hr with rfl | hr
          · intro _ _; rfl
          · exact hacc r hr
        | none =>
          simp only [acquireAux, happi, hlt, hpup, if_true] at hr
          refine ih (attempt + 1) _ ?_ r hr
          intro r' hr'
          rcases List.mem_cons.mp hr' with rfl | hr'
          · intro _ _; rfl
          · exact hacc r' hr'
      · simp only [acquireAux, happi, hlt, if_true, if_false] at hr
        refine ih (attempt + 1) _ ?_ r hr
        intro r' hr'
        rcases List.mem_cons.mp hr' with rfl | hr'
        · intro _ hcontra
          exact absurd hcontra hlt
        · exact hacc r' hr'

/-- C8 (amended).  Per-attempt code-source fallback with a final-attempt
exception: whenever the primary source returns null on an attempt other
than the last, the secondary source is consulted in that same attempt; on
the last attempt a null primary result ends the acquisition without the
fallback.  Scenario D: primary null, secondary delivers "482913" on the
first attempt — "482913" is submitted and the attempt records success. -/
theorem verification_code_fallback :
    (∀ (maxRetries : Nat) (apiCode puppeteerCode : Nat → Option String) (r : CodeAttempt),
        r ∈ (acquireVerificationCode true maxRetries apiCode puppeteerCode).2 →
        apiCode r.attempt = none → r.attempt < maxRetries → r.fallbackTried = true)
      ∧ (acquireVerificationCode true 3 (fun _ => none)
            (fun a => if a == 1 then some "482913" else none)).1 = some "482913"
      ∧ performLoginCodePhase
          (acquireVerificationCode true 3 (fun _ => none)
            (fun a => if a == 1 then some "482913" else none)).1 true true
          = ⟨some "482913", true, none⟩ := by
  refine ⟨?_, by decide, by decide⟩
  intro maxRetries apiCode puppeteerCode r hr
  exact acquireAux_fallback maxRetries apiCode puppeteerCode maxRetries 1 [] (by simp) r hr

/-- Witness for C8 (amended): in a 2-attempt acquisition with both sources
empty, attempt 1 consulted the fallback. -/
theorem verification_code_fallback_witness :
    ((⟨1, true, true⟩ : CodeAttempt)
        ∈ (acquireVerificationCode true 2 (fun _ => none) (fun _ => none)).2)
      ∧ (⟨1, true, true⟩ : CodeAttempt).fallbackTried = true :=
  ⟨by decide,
   verification_code_fallback.1 2 (fun _ => none) (fun _ => none) _ (by decide)
     (by decide) (by decide)⟩

/-! ### Delivery-issue classification (`checkForDeliveryIssue` and the
`OrderResult` built in `searchAndClickOrderCodes`) -/

/-- Result shape of `checkForDeliveryIssue`. -/
structure IssueCheckResult where
  hasIssue : Bool
  issueText : Option String
deriving DecidableEq

/-- The keyword test of lines 2767-2774. -/
def hasIssueKeywords (issueText : String) : Bool :=
  includesSubstr (toLowerCase issueText) "delivery issue"
    || includesSubstr (toLowerCase issueText) "missing food"
    || includesSubstr (toLowerCase issueText) "issue dispute"
    || includesSubstr (toLowerCase issueText) "dispute is pending"
    || includesSubstr (toLowerCase issueText) "issues related to this order"
    || (includesSubstr (toLowerCase issueText) "reported"
        && includesSubstr (toLowerCase issueText) "order")

/-- `checkForDeliveryIssue` over an abstract page read: a raised error (the
catch at lines 2780-2783) or an optional extracted issue text (`none` when
the detail view yielded nothing parseable). -/
def checkForDeliveryIssue (pageRead : Except String (Option String)) : IssueCheckResult :=
  match pageRead with
  | .error _ => ⟨false, none⟩
  | .ok none => ⟨false, none⟩
  | .ok (some issueText) =>
    let h := hasIssueKeywords issueText
    ⟨h, if h then some issueText else none⟩

/-- `status: issueCheck.hasIssue ? 'failure' : 'success'` (line 3951). -/
def orderResultStatus (check : IssueCheckResult) : String :=
  if check.hasIssue then "failure" else "success"

/-- C9.  Fail-open classification: when the issue check raises or the
detail view is unparseable, `hasIssue` defaults to false and the recorded
`OrderResult` status is success. -/
theorem fail_open_classification :
    (∀ (e : String),
        (checkForDeliveryIssue (Except.error e)).hasIssue = false
          ∧ orderResultStatus (checkForDeliveryIssue (Except.error e)) = "success")
      ∧ (checkForDeliveryIssue (Except.ok none)).hasIssue = false
      ∧ orderResultStatus (checkForDeliveryIssue (Except.ok none)) = "success" := by
  exact ⟨fun e => ⟨rfl, rfl⟩, rfl, rfl⟩

/-! ### `waitRandomTime` (lines 870-879) -/

/-- Wait duration computed by `waitRandomTime(minMs, maxMs)`.  `rand`
stands for the random draw: `rand % (range)` models
`Math.floor(Math.random() * range)`, uniform over `[0, range)`.  When
`minMs ≤ maxMs` the arguments are NOT swapped and no draw happens: the wait
is exactly `minMs`. -/
def waitRandomTimeDuration (minMs maxMs : Nat) (rand : Nat) : Nat :=
  if minMs > maxMs then
    rand % (minMs - maxMs + 1) + maxMs
  else
    minMs

/-- C10.  `waitRandomTime` waits exactly `minMs` whenever `minMs ≤ maxMs`;
only with reversed arguments (`minMs > maxMs`) is a random duration drawn,
and then every value between the two bounds (inclusive) is reachable. -/
theorem waitRandomTime_deterministic_min :
    (∀ (minMs maxMs rand : Nat), minMs ≤ maxMs →
        waitRandomTimeDuration minMs maxMs rand = minMs)
      ∧ (∀ (minMs maxMs rand : Nat), maxMs < minMs →
          maxMs ≤ waitRandomTimeDuration minMs maxMs rand
            ∧ waitRandomTimeDuration minMs maxMs rand ≤ minMs)
      ∧ (∀ (minMs maxMs v : Nat), maxMs < minMs → maxMs ≤ v → v ≤ minMs →
          ∃ rand, waitRandomTimeDuration minMs maxMs rand = v) := by
  refine ⟨?_, ?_, ?_⟩
  · intro minMs maxMs rand h
    have hng : ¬ minMs > maxMs := by omega
    simp [waitRandomTimeDuration, hng]
  · intro minMs maxMs rand h
    have hpos : 0 < minMs - maxMs + 1 := by omega
    have hmod := Nat.mod_lt rand hpos
    simp only [waitRandomTimeDuration, h, if_pos]
    omega
  · intro minMs maxMs v h hv1 hv2
    refine ⟨v - maxMs, ?_⟩
    have hlt : v - maxMs < minMs - maxMs + 1 := by omega
    simp only [waitRandomTimeDuration, h, if_pos]
    rw [Nat.mod_eq_of_lt hlt]
    omega

/-- Witness for C10: `waitRandomTime(2000, 5000)` waits exactly 2000 ms
whatever the random draw. -/
theorem waitRandomTime_deterministic_min_witness :
    (2000 : Nat) ≤ 5000 ∧ waitRandomTimeDuration 2000 5000 999 = 2000 :=
  ⟨by decide, waitRandomTime_deterministic_min.1 2000 5000 999 (by decide)⟩

end WebEstablishmentBot
